import Mathlib

/-!
Verification of the leaderboard-driven position monitoring engine of the
tokabu_watcher repository (`src/processors/HyperliquidProcessor.ts`,
WebSocket revision).  The engine's data and decision logic are shallowly
embedded: numeric position fields (strings parsed with `parseFloat` in the
source) are modelled as rationals, JavaScript `Set`/`Map` collections as
duplicate-free lists in insertion order, and the WebSocket / HTTP effects as
explicit state transitions over an `EngineState` record.
-/

namespace Hyperliquid

/-- Qualification threshold `MIN_LEVERAGE = 30` (HyperliquidProcessor.ts line 67). -/
def MIN_LEVERAGE : ℚ := 30

/-- Qualification threshold `MIN_POSITION_VALUE = 100000` (line 68). -/
def MIN_POSITION_VALUE : ℚ := 100000

/-- Constant `SUBSCRIPTION_BATCH_SIZE = 10` (line 63). -/
def SUBSCRIPTION_BATCH_SIZE : Nat := 10

/-- Constant `SUBSCRIPTION_DELAY = 100` ms between subscription batches (line 64). -/
def SUBSCRIPTION_DELAY : Nat := 100

/-- Constant `TOP_TRADERS_COUNT = 100` (line 49). -/
def TOP_TRADERS_COUNT : Nat := 100

/-- One open position, from the `HyperliquidPosition` interface
(`src/types/index.ts` lines 138-158).  The string-encoded numeric fields
(`szi`, `positionValue`, `marginUsed`, `entryPx`) are modelled as the
rational values their `parseFloat` produces; the optional `leverage` object
is modelled by the optional rational `leverage.value`. -/
structure HyperliquidPosition where
  coin : String
  szi : ℚ
  positionValue : ℚ
  marginUsed : ℚ
  entryPx : ℚ
  leverage : Option ℚ
deriving DecidableEq, Repr

/-- Function `calculateLeverage` (HyperliquidProcessor.ts lines 474-487): prefer the
explicit `leverage.value` field when the leverage object is present
(`position.leverage.value || 0`, the identity on numbers since a zero value
yields 0 either way), else fall back to `positionValue / marginUsed` when
`marginUsed > 0`, else 0. -/
def calculateLeverage (position : HyperliquidPosition) : ℚ :=
  let positionValue := |position.positionValue|
  match position.leverage with
  | some v => v
  | none => if 0 < position.marginUsed then positionValue / position.marginUsed else 0

/-- Function `isQualifyingPosition` (HyperliquidProcessor.ts lines 462-472):
long (`szi > 0`) and `|positionValue| >= MIN_POSITION_VALUE` and
`calculateLeverage >= MIN_LEVERAGE`. -/
def isQualifyingPosition (position : HyperliquidPosition) : Bool :=
  let positionSize := position.szi
  let positionValue := |position.positionValue|
  let leverage := calculateLeverage position
  decide (0 < positionSize) && decide (MIN_POSITION_VALUE ≤ positionValue)
    && decide (MIN_LEVERAGE ≤ leverage)

/-- The per-(address, coin) core of `handleFill` (HyperliquidProcessor.ts
lines 423-448): given the stored previous position for the fill's coin and
the freshly fetched current position, return whether an alert is emitted
(`isQualifying && !wasQualifying`) together with the new stored state for
that coin (`userPositions.set coin current` / `userPositions.delete coin`). -/
def handleFillTransition (previous current : Option HyperliquidPosition) :
    Bool × Option HyperliquidPosition :=
  match current with
  | some c =>
    let wasQualifying := match previous with
      | some p => isQualifyingPosition p
      | none => false
    (isQualifyingPosition c && !wasQualifying, some c)
  | none =>
    match previous with
    | some _ => (false, none)
    | none => (false, none)

/-! Section: Alert deduplication cache

`seenAlerts` is a JavaScript `Set<string>` used inside `emitPositionAlert`
(HyperliquidProcessor.ts lines 489-531).  A JS `Set` iterates in insertion
order, so it is modelled as a duplicate-free list with the oldest element
first.  The cache is generic in the signature type, as `Set` itself is. -/

/-- Membership test `seenAlerts.has(sig)` negated: the signature may be
emitted when it is not in the cache. -/
def shouldEmit {α : Type} [DecidableEq α] (seen : List α) (sig : α) : Bool :=
  decide (sig ∉ seen)

/-- The cache mutation performed by one `emitPositionAlert` call
(lines 495-499 and 526-530): early return when the signature is present,
else insert it at the end, then, when the size exceeds 1000, retain only the
most recent 500 entries (`Array.from(seenAlerts).slice(-500)`). -/
def recordAlert {α : Type} [DecidableEq α] (seen : List α) (sig : α) : List α :=
  if sig ∈ seen then seen
  else
    let seen1 := seen ++ [sig]
    if 1000 < seen1.length then seen1.drop (seen1.length - 500) else seen1

/-- Folding `recordAlert` over a list of incoming signatures. -/
def recordAll {α : Type} [DecidableEq α] (seen : List α) (sigs : List α) : List α :=
  sigs.foldl recordAlert seen

/-- The `alertId` (line 493): address, coin, value bucket `floor(value/10000)`
and integer leverage `floor(leverage)` joined by underscores. -/
def mkAlertId (address : String) (position : HyperliquidPosition) : String :=
  let leverage := calculateLeverage position
  let positionValue := |position.positionValue|
  address ++ "_" ++ position.coin ++ "_" ++ toString ⌊positionValue / 10000⌋
    ++ "_" ++ toString ⌊leverage⌋

/-- Result of one `emitPositionAlert` call: the cache afterwards, how many
times the outbound callback was invoked, and whether the call raised. -/
structure EmitResult where
  seenAlerts : List String
  callbackCalls : Nat
  threw : Bool
deriving DecidableEq, Repr

/-- Function `emitPositionAlert` (lines 489-531) with the callback's behaviour as the
parameter `cbThrows`: return early when the signature is cached (callback
not invoked); otherwise record the signature, then invoke the callback — if
the callback throws, the error propagates (caught by `handleFill`) before
the final size-cap cleanup runs, but the signature stays recorded. -/
def emitPositionAlert (seen : List String) (cbThrows : Bool) (address : String)
    (position : HyperliquidPosition) : EmitResult :=
  let alertId := mkAlertId address position
  if alertId ∈ seen then ⟨seen, 0, false⟩
  else
    let seen1 := seen ++ [alertId]
    if cbThrows then ⟨seen1, 1, true⟩
    else ⟨if 1000 < seen1.length then seen1.drop (seen1.length - 500) else seen1, 1, false⟩

/-! Section: Leaderboard registry

`updateLeaderboard` (HyperliquidProcessor.ts lines 144-205) fetches the
ranking endpoint and replaces `topAddresses`.  JS string truthiness is
modelled by "non-empty string"; an absent field is the empty string. -/

/-- One entry of the ranking payload, with the address-bearing candidate
fields `user`, `address`, `wallet`, `ethAddress` ("" encodes absent). -/
structure LBEntry where
  user : String
  address : String
  wallet : String
  ethAddress : String
deriving DecidableEq, Repr

/-- Evaluation of `entry.user || entry.address || entry.ethAddress` (the array and
`data.leaderboard` branches, lines 166-176). -/
def entryAddr3 (e : LBEntry) : String :=
  if e.user ≠ "" then e.user
  else if e.address ≠ "" then e.address
  else e.ethAddress

/-- Evaluation of `entry.user || entry.address || entry.wallet || entry.ethAddress`
(the generic-object branch, lines 178-190). -/
def entryAddr4 (e : LBEntry) : String :=
  if e.user ≠ "" then e.user
  else if e.address ≠ "" then e.address
  else if e.wallet ≠ "" then e.wallet
  else e.ethAddress

/-- One element of an address-bearing array: either a nullish value (JS
`null`/`undefined`) or an entry object. -/
inductive LBItem
  | nullItem
  | entryItem (e : LBEntry)
deriving DecidableEq, Repr

/-- Test for a nullish array element. -/
def isNullItem : LBItem → Bool
  | LBItem.nullItem => true
  | LBItem.entryItem _ => false

/-- Extraction of the entry object of a non-null element. -/
def entryOf : LBItem → Option LBEntry
  | LBItem.nullItem => none
  | LBItem.entryItem e => some e

/-- The array / `data.leaderboard` parsing pipeline (lines 165-176): its
`.filter(entry => entry.user || ...)` callback reads `entry.user` with no
null guard, so a nullish element makes the whole pipeline throw a
`TypeError` (modelled as `none`); otherwise filter the address-bearing
entries, map to the address, drop falsy addresses and cap at
`TOP_TRADERS_COUNT`. -/
def parseEntries3 (items : List LBItem) : Option (List String) :=
  if items.any isNullItem then none
  else
    some (((((items.filterMap entryOf).filter (fun e => entryAddr3 e ≠ "")).map
      entryAddr3).filter (fun a => a ≠ "")).take TOP_TRADERS_COUNT)

/-- One field value of a generic-object payload: either an array of items
or some non-array value. -/
inductive ObjField
  | arrField (items : List LBItem)
  | otherField
deriving DecidableEq, Repr

/-- The generic-object branch (lines 178-190): walk the object's fields in
order, and for the first non-empty array whose items yield at least one
address, return those addresses capped at `TOP_TRADERS_COUNT`.  Unlike the
other two branches, its filter callback is null-guarded
(`entry && (entry.user || ...)`), so nullish items are skipped and nothing
throws. -/
def parseObjectFields : List ObjField → List String
  | [] => []
  | ObjField.otherField :: rest => parseObjectFields rest
  | ObjField.arrField items :: rest =>
    if items.length = 0 then parseObjectFields rest
    else
      let testAddresses :=
        ((((items.filter (fun i => match i with
            | LBItem.nullItem => false
            | LBItem.entryItem e => entryAddr4 e ≠ "")).filterMap entryOf).map
          entryAddr4).filter (fun a => a ≠ ""))
      if testAddresses.length = 0 then parseObjectFields rest
      else testAddresses.take TOP_TRADERS_COUNT

/-- The truthy value of an object's `leaderboard` field: an array of items
(an empty array is truthy in JS and takes this branch) or a truthy
non-array value such as a number. -/
inductive LBFieldValue
  | arrVal (items : List LBItem)
  | nonArrVal
deriving DecidableEq, Repr

/-- The shape of `response.data` as the parsing code distinguishes it:
falsy, an array, an object with a truthy `leaderboard` field, some other
object, or a truthy non-object primitive. -/
inductive LBData
  | nullData
  | arrayData (items : List LBItem)
  | leaderboardObj (v : LBFieldValue)
  | objectData (fields : List ObjField)
  | primitiveData
deriving DecidableEq, Repr

/-- Outcome of the HTTP GET against the ranking endpoint: a thrown error
(timeout, network failure) or a payload. -/
inductive LBResponse
  | fetchError
  | payload (d : LBData)
deriving DecidableEq, Repr

/-- The `addresses` computation over a payload (lines 161-191), `none` when
the parsing code throws: a truthy non-array `leaderboard` value has no
`.filter` method (line 172), and a nullish element of an address array
throws on property access (line 167); `addresses` stays `[]` when no branch
finds an address-like array. -/
def parseLeaderboard : LBData → Option (List String)
  | LBData.nullData => some []
  | LBData.arrayData items => parseEntries3 items
  | LBData.leaderboardObj (LBFieldValue.arrVal items) => parseEntries3 items
  | LBData.leaderboardObj LBFieldValue.nonArrVal => none
  | LBData.objectData fields => some (parseObjectFields fields)
  | LBData.primitiveData => some []

/-- Insertion-order `new Set(addresses)` (first occurrences kept). -/
def listToSet (l : List String) : List String :=
  l.foldl (fun acc a => if a ∈ acc then acc else acc ++ [a]) []

/-- Function `updateLeaderboard` (lines 144-205) as a function from the
previous `topAddresses` set and the fetch outcome to the new `topAddresses`
set.  The single `try` block spans both the HTTP GET and all parsing, and
its catch (line 202) only logs: a thrown fetch and a thrown parse both keep
the previous set, as does the early return on a falsy `response.data`; any
payload that parses cleanly unconditionally replaces the set with
`new Set(addresses)` — even when `addresses` is empty. -/
def updateLeaderboard (previous : List String) : LBResponse → List String
  | LBResponse.fetchError => previous
  | LBResponse.payload LBData.nullData => previous
  | LBResponse.payload d =>
    match parseLeaderboard d with
    | none => previous
    | some addresses => listToSet addresses

/-! Section: Engine state, subscriptions and connection lifecycle

The processor's mutable fields relevant to the claims, with `Set`/`Map`
collections modelled as duplicate-free lists in insertion order (only the
key set of `userPositions` matters for the reconciliation claims).
Outbound WebSocket control frames are recorded in `sentFrames`. -/

/-- An outbound subscribe/unsubscribe control frame (lines 299-307 and
327-335), keyed by the target address. -/
inductive WsFrame
  | subscribeFrame (user : String)
  | unsubscribeFrame (user : String)
deriving DecidableEq, Repr

/-- The processor's state: `isRunning`, whether `ws` exists with
`readyState === OPEN`, `topAddresses`, `activeSubscriptions`, the key set of
`userPositions`, `subscriptionQueue`, and the control frames sent so far. -/
structure EngineState where
  isRunning : Bool
  wsOpen : Bool
  topAddresses : List String
  activeSubscriptions : List String
  userPositionKeys : List String
  subscriptionQueue : List String
  sentFrames : List WsFrame
deriving DecidableEq, Repr

/-- Operation `Set.delete` / `Map.delete`: remove the key from the set-as-list. -/
def setDelete (l : List String) (a : String) : List String :=
  l.filter (fun x => x ≠ a)

/-- Function `subscribeToAddress` (lines 289-316) with the outcome of
`loadInitialPositions` supplied as `fetchOk`: when the socket is not open,
log a warning and return with no other effect; when already subscribed,
return; otherwise send a subscribe frame, add the address to
`activeSubscriptions`, and seed `userPositions` for the address when it has
no entry yet and the snapshot fetch succeeds. -/
def subscribeToAddress (s : EngineState) (a : String) (fetchOk : String → Bool) :
    EngineState :=
  if !s.wsOpen then s
  else if a ∈ s.activeSubscriptions then s
  else
    { s with
      sentFrames := s.sentFrames ++ [WsFrame.subscribeFrame a]
      activeSubscriptions := s.activeSubscriptions ++ [a]
      userPositionKeys :=
        if a ∈ s.userPositionKeys then s.userPositionKeys
        else if fetchOk a then s.userPositionKeys ++ [a] else s.userPositionKeys }

/-- Function `unsubscribeFromAddress` (lines 318-339): when the socket is not open or
the address is not subscribed, return with no effect; otherwise send an
unsubscribe frame and remove the address from `activeSubscriptions`. -/
def unsubscribeFromAddress (s : EngineState) (a : String) : EngineState :=
  if !s.wsOpen then s
  else if a ∉ s.activeSubscriptions then s
  else
    { s with
      sentFrames := s.sentFrames ++ [WsFrame.unsubscribeFrame a]
      activeSubscriptions := setDelete s.activeSubscriptions a }

/-- The per-removed-address step of the reconciliation loop (lines 230-233):
unsubscribe, then `userPositions.delete(address)`. -/
def removeOne (s : EngineState) (a : String) : EngineState :=
  let s1 := unsubscribeFromAddress s a
  { s1 with userPositionKeys := setDelete s1.userPositionKeys a }

/-- The `newAddresses` diff (lines 214-219): current top addresses absent from the
previous snapshot. -/
def computeNewAddresses (current previous : List String) : List String :=
  current.filter (fun a => a ∉ previous)

/-- The `removedAddresses` diff (lines 222-227): previous addresses absent from the
current snapshot. -/
def computeRemovedAddresses (current previous : List String) : List String :=
  previous.filter (fun a => a ∉ current)

/-- Function `updateLeaderboardAndAdjustSubscriptions` (lines 207-245) given the new
snapshot `newTop` produced by `updateLeaderboard`: diff the snapshots, then
unsubscribe every removed address and drop its position entry, then
subscribe every new address. -/
def adjustSubscriptions (s : EngineState) (newTop : List String)
    (fetchOk : String → Bool) : EngineState :=
  let previous := s.topAddresses
  let s1 := { s with topAddresses := newTop }
  let newAddresses := computeNewAddresses newTop previous
  let removedAddresses := computeRemovedAddresses newTop previous
  let s2 := removedAddresses.foldl removeOne s1
  newAddresses.foldl (fun st a => subscribeToAddress st a fetchOk) s2

/-- The `close` handler of the WebSocket (lines 122-128): the socket is now
closed; when `isRunning` is still true, a `connectWebSocket` retry is
scheduled after 5000 ms (returned as `some 5000`), otherwise nothing is
scheduled. -/
def handleClose (s : EngineState) : EngineState × Option Nat :=
  let s1 := { s with wsOpen := false }
  (s1, if s1.isRunning then some 5000 else none)

/-- What `connectWebSocket` (lines 102-142) does to the modelled state once
the new transport opens: the socket becomes open; no control frame is sent
and no subscription or position bookkeeping is touched. -/
def reconnectOpen (s : EngineState) : EngineState :=
  { s with wsOpen := true }

/-- Function `stop` (lines 553-572): clear `isRunning`, close the socket, and clear
the subscription and position bookkeeping. -/
def stopEngine (s : EngineState) : EngineState :=
  { s with
    isRunning := false
    wsOpen := false
    activeSubscriptions := []
    userPositionKeys := [] }

/-! Section: Subscription queue batching -/

/-- One observable step of `processSubscriptionQueue`: a dispatched batch of
subscribe calls, or the inter-batch sleep. -/
inductive SubEvent
  | dispatchBatch (addrs : List String)
  | delayStep (ms : Nat)
deriving DecidableEq, Repr

/-- The event trace of `processSubscriptionQueue` (lines 256-287): while the
queue is non-empty, splice off the first `SUBSCRIPTION_BATCH_SIZE`
addresses, dispatch them, and sleep `SUBSCRIPTION_DELAY` ms when the queue
is still non-empty. -/
def processSubscriptionQueue (queue : List String) : List SubEvent :=
  if h : queue = [] then []
  else
    let rest := queue.drop SUBSCRIPTION_BATCH_SIZE
    SubEvent.dispatchBatch (queue.take SUBSCRIPTION_BATCH_SIZE) ::
      (if rest = [] then []
       else SubEvent.delayStep SUBSCRIPTION_DELAY :: processSubscriptionQueue rest)
termination_by queue.length
decreasing_by
  simp only [rest, List.length_drop]
  have hq : 0 < queue.length := List.length_pos.mpr h
  simp [SUBSCRIPTION_BATCH_SIZE]
  omega

/-- The batches of a trace, in dispatch order. -/
def batchesOf : List SubEvent → List (List String)
  | [] => []
  | SubEvent.dispatchBatch b :: rest => b :: batchesOf rest
  | SubEvent.delayStep _ :: rest => batchesOf rest

/-- The delays of a trace, in order. -/
def delaysOf : List SubEvent → List Nat
  | [] => []
  | SubEvent.dispatchBatch _ :: rest => delaysOf rest
  | SubEvent.delayStep d :: rest => d :: delaysOf rest

/-! Theorems: Theorems for the claims -/

/-- C1: `isQualifyingPosition` returns true iff the position is long
(signed size strictly positive), its absolute USD value is at least 100000,
and its leverage is at least 30; and both boundary values (value exactly
100000 and leverage exactly 30, whether explicit or margin-derived)
qualify. -/
theorem c1_isQualifying_iff :
    (∀ p : HyperliquidPosition,
        isQualifyingPosition p = true ↔
          0 < p.szi ∧ (100000 : ℚ) ≤ |p.positionValue| ∧
            (30 : ℚ) ≤ calculateLeverage p)
    ∧ isQualifyingPosition ⟨"BTC", 1, 100000, 5000, 50000, some 30⟩ = true
    ∧ isQualifyingPosition ⟨"BTC", 1, 100000, 10000 / 3, 50000, none⟩ = true := by
  refine ⟨fun p => ?_, by decide, ?_⟩
  · simp [isQualifyingPosition, MIN_POSITION_VALUE, MIN_LEVERAGE, and_assoc]
  · norm_num [isQualifyingPosition, calculateLeverage, MIN_POSITION_VALUE, MIN_LEVERAGE]

/-- C3: the leverage used in qualification is the explicit leverage field's
value when present, else `|positionValue| / marginUsed` when `marginUsed` is
strictly positive, else 0 — and a leverage of 0 never qualifies. -/
theorem c3_calculateLeverage_cases :
    (∀ (p : HyperliquidPosition) (v : ℚ), p.leverage = some v →
        calculateLeverage p = v)
    ∧ (∀ p : HyperliquidPosition, p.leverage = none → 0 < p.marginUsed →
        calculateLeverage p = |p.positionValue| / p.marginUsed)
    ∧ (∀ p : HyperliquidPosition, p.leverage = none → ¬ 0 < p.marginUsed →
        calculateLeverage p = 0)
    ∧ (∀ p : HyperliquidPosition, calculateLeverage p = 0 →
        isQualifyingPosition p = false) := by
  refine ⟨fun p v h => ?_, fun p h hm => ?_, fun p h hm => ?_, fun p h => ?_⟩
  · simp [calculateLeverage, h]
  · simp [calculateLeverage, h, hm]
  · simp [calculateLeverage, h, hm]
  · norm_num [isQualifyingPosition, h, MIN_LEVERAGE]

/-- Witness for C3 at concrete positions: explicit leverage field 40, a
margin-derived leverage, a zero-margin position with leverage 0, and the
zero-leverage position failing to qualify. -/
theorem c3_calculateLeverage_cases_witness :
    calculateLeverage ⟨"BTC", 1, 100000, 2000, 50000, some 40⟩ = 40
    ∧ calculateLeverage ⟨"ETH", 1, 100000, 2000, 50000, none⟩ = |(100000 : ℚ)| / 2000
    ∧ calculateLeverage ⟨"SOL", 1, 100000, 0, 50000, none⟩ = 0
    ∧ isQualifyingPosition ⟨"SOL", 1, 100000, 0, 50000, none⟩ = false :=
  ⟨c3_calculateLeverage_cases.1 _ 40 rfl,
   c3_calculateLeverage_cases.2.1 ⟨"ETH", 1, 100000, 2000, 50000, none⟩ rfl (by decide),
   c3_calculateLeverage_cases.2.2.1 ⟨"SOL", 1, 100000, 0, 50000, none⟩ rfl (by decide),
   c3_calculateLeverage_cases.2.2.2 ⟨"SOL", 1, 100000, 0, 50000, none⟩ (by decide)⟩

/-- C2: the fill handler's transition detection is edge-triggered — an alert
is emitted exactly when the current position qualifies and the previous one
(if any) did not; a qualifying-to-qualifying update (even with larger value)
emits nothing, and present-to-absent clears the stored state without an
alert. -/
theorem c2_edge_triggered :
    (∀ previous current : Option HyperliquidPosition,
        (handleFillTransition previous current).1 = true ↔
          ∃ c, current = some c ∧ isQualifyingPosition c = true ∧
            ∀ p, previous = some p → isQualifyingPosition p = false)
    ∧ (∀ p c : HyperliquidPosition, isQualifyingPosition p = true →
        isQualifyingPosition c = true →
        handleFillTransition (some p) (some c) = (false, some c))
    ∧ (∀ p : HyperliquidPosition,
        handleFillTransition (some p) none = (false, none)) := by
  refine ⟨fun previous current => ?_, fun p c hp hc => ?_, fun p => rfl⟩
  · cases current with
    | none => cases previous <;> simp [handleFillTransition]
    | some c =>
      cases previous with
      | none => simp [handleFillTransition]
      | some p => simp [handleFillTransition]
  · simp [handleFillTransition, hp, hc]

/-- Witness for C2: a qualifying position that stays qualifying with a
larger value emits no alert. -/
theorem c2_edge_triggered_witness :
    handleFillTransition (some ⟨"BTC", 1, 150000, 4000, 50000, some 37⟩)
        (some ⟨"BTC", 2, 300000, 8000, 50000, some 37⟩) =
      (false, some ⟨"BTC", 2, 300000, 8000, 50000, some 37⟩) :=
  c2_edge_triggered.2.1 _ _ (by decide) (by decide)

/-! Section: Dedup cache lemmas -/

/-- Branch lemma: a cached signature leaves the cache unchanged. -/
theorem recordAlert_of_mem {α : Type} [DecidableEq α] {seen : List α} {sig : α}
    (h : sig ∈ seen) : recordAlert seen sig = seen := by
  unfold recordAlert
  rw [if_pos h]

/-- Branch lemma: a fresh signature is appended when the cache stays within
the cap. -/
theorem recordAlert_of_small {α : Type} [DecidableEq α] {seen : List α} {sig : α}
    (h : sig ∉ seen) (h2 : seen.length < 1000) :
    recordAlert seen sig = seen ++ [sig] := by
  unfold recordAlert
  rw [if_neg h, if_neg]
  simp only [List.length_append, List.length_cons, List.length_nil]
  omega

/-- Branch lemma: a fresh signature pushing the cache over the cap triggers
eviction down to the most recent 500 entries. -/
theorem recordAlert_of_big {α : Type} [DecidableEq α] {seen : List α} {sig : α}
    (h : sig ∉ seen) (h2 : 1000 ≤ seen.length) :
    recordAlert seen sig = (seen ++ [sig]).drop ((seen ++ [sig]).length - 500) := by
  unfold recordAlert
  rw [if_neg h, if_pos]
  simp only [List.length_append, List.length_cons, List.length_nil]
  omega

/-- The signature just recorded is always in the cache afterwards: it is
appended at the end, and the size-cap eviction keeps the most recent
entries. -/
theorem recordAlert_self_mem {α : Type} [DecidableEq α] (seen : List α) (sig : α) :
    sig ∈ recordAlert seen sig := by
  by_cases hmem : sig ∈ seen
  · rw [recordAlert_of_mem hmem]; exact hmem
  · by_cases hlen : seen.length < 1000
    · rw [recordAlert_of_small hmem hlen]; simp
    · rw [recordAlert_of_big hmem (by omega)]
      rw [List.drop_append_of_le_length (by simp)]
      simp

/-- Recording a batch of fresh signatures that keeps the cache within the
cap simply appends them in order. -/
theorem recordAll_eq_append {α : Type} [DecidableEq α] (sigs : List α) :
    ∀ seen : List α, (seen ++ sigs).Nodup → seen.length + sigs.length ≤ 1000 →
      recordAll seen sigs = seen ++ sigs := by
  induction sigs with
  | nil => intro seen _ _; simp [recordAll]
  | cons s t ih =>
    intro seen hnd hlen
    have hs : s ∉ seen := by
      intro hmem
      have := (List.nodup_append.mp hnd).2.2 hmem
      simp at this
    have hlt : seen.length < 1000 := by
      simp only [List.length_cons] at hlen; omega
    have hstep : recordAlert seen s = seen ++ [s] := recordAlert_of_small hs hlt
    have hnd' : ((seen ++ [s]) ++ t).Nodup := by
      simpa [List.append_assoc] using hnd
    have hlen' : (seen ++ [s]).length + t.length ≤ 1000 := by
      simp only [List.length_append, List.length_cons, List.length_nil,
        List.length_cons] at hlen ⊢
      omega
    calc recordAll seen (s :: t) = recordAll (seen ++ [s]) t := by
          simp [recordAll, hstep]
      _ = (seen ++ [s]) ++ t := ih (seen ++ [s]) hnd' hlen'
      _ = seen ++ s :: t := by simp

/-- C5: after `record(sig)` the cache reports `shouldEmit(sig) = false`; one
`record` call never grows the cache beyond the cap of 1000; and in a run of
1001 distinct signatures, the first one still reports `shouldEmit = false`
after the first 1000 insertions, while the 1001st insertion evicts the
oldest half so that the first signature's `shouldEmit` becomes true again. -/
theorem c5_dedup_cache :
    (∀ {α : Type} [DecidableEq α] (seen : List α) (sig : α),
        shouldEmit (recordAlert seen sig) sig = false)
    ∧ (∀ {α : Type} [DecidableEq α] (seen : List α) (sig : α),
        seen.length ≤ 1000 → (recordAlert seen sig).length ≤ 1000)
    ∧ (∀ {α : Type} [DecidableEq α] (s : α) (rest : List α),
        (s :: rest).Nodup → rest.length = 1000 →
        shouldEmit (recordAll ([] : List α) (s :: rest.take 999)) s = false
        ∧ shouldEmit (recordAll ([] : List α) (s :: rest)) s = true) := by
  refine ⟨?_, ?_, ?_⟩
  · intro α _ seen sig
    simp [shouldEmit, recordAlert_self_mem]
  · intro α _ seen sig hle
    by_cases hmem : sig ∈ seen
    · rw [recordAlert_of_mem hmem]; exact hle
    · by_cases hlen : seen.length < 1000
      · rw [recordAlert_of_small hmem hlen]
        simp only [List.length_append, List.length_cons, List.length_nil]
        omega
      · rw [recordAlert_of_big hmem (by omega)]
        rw [List.length_drop]
        simp only [List.length_append, List.length_cons, List.length_nil]
        omega
  · intro α _ s rest hnd hlen
    constructor
    · have hsub : (s :: rest.take 999).Sublist (s :: rest) :=
        List.Sublist.cons₂ s (List.take_sublist 999 rest)
      have hnd' : (s :: rest.take 999).Nodup := hsub.nodup hnd
      have heq : recordAll ([] : List α) (s :: rest.take 999) = s :: rest.take 999 := by
        have := recordAll_eq_append (s :: rest.take 999) [] (by simpa using hnd')
          (by simp only [List.nil_append, List.length_nil, List.length_cons,
                List.length_take, hlen]
              omega)
        simpa using this
      rw [heq]
      simp [shouldEmit]
    · obtain ⟨front, last, hfl⟩ : ∃ front last, rest = front ++ [last] := by
        cases hback : rest.getLast? with
        | none => rw [List.getLast?_eq_none_iff] at hback; simp [hback] at hlen
        | some b =>
          exact ⟨rest.dropLast, b, (List.dropLast_append_getLast? b hback).symm⟩
      subst hfl
      have hfront : front.length = 999 := by
        simp only [List.length_append, List.length_cons, List.length_nil] at hlen
        omega
      have hnd1 : ((s :: front) ++ [last]).Nodup := by simpa using hnd
      have hlast : last ∉ s :: front := by
        intro hmem
        have := (List.nodup_append.mp hnd1).2.2 hmem
        simp at this
      have hstep1 : recordAll ([] : List α) (s :: (front ++ [last]))
          = recordAll (s :: front) [last] := by
        have h1 : recordAll ([] : List α) ((s :: front) ++ [last])
            = recordAll (recordAll ([] : List α) (s :: front)) [last] := by
          simp [recordAll, List.foldl_append]
        have h2 : recordAll ([] : List α) (s :: front) = s :: front := by
          have := recordAll_eq_append (s :: front) []
            (by simpa using hnd1.of_append_left)
            (by simp only [List.length_nil, List.length_cons, hfront]; omega)
          simpa using this
        rw [← List.cons_append]
        rw [h1, h2]
      rw [hstep1]
      have hfinal : recordAll (s :: front) [last]
          = ((s :: front) ++ [last]).drop (((s :: front) ++ [last]).length - 500) := by
        simp only [recordAll, List.foldl_cons, List.foldl_nil]
        exact recordAlert_of_big hlast (by simp [hfront])
      rw [hfinal]
      have hdrop : ((s :: front) ++ [last]).length - 500 = 501 := by
        simp only [List.length_append, List.length_cons, List.length_nil, hfront]
      rw [hdrop]
      have hsY : s ∉ front ++ [last] := (List.nodup_cons.mp hnd).1
      have hnotin : s ∉ ((s :: front) ++ [last]).drop 501 := by
        intro hmem
        rw [List.cons_append] at hmem
        have : s ∈ (front ++ [last]).drop 500 := by
          simpa [List.drop_succ_cons] using hmem
        exact hsY (List.mem_of_mem_drop this)
      simp only [shouldEmit, decide_eq_true_eq]
      exact hnotin

/-- Witness for C5 with the 1001 distinct signatures 0, 1, ..., 1000: after
the first 1000 insertions signature 0 is still suppressed; after the 1001st
it becomes eligible again. -/
theorem c5_dedup_cache_witness :
    shouldEmit (recordAll ([] : List ℕ)
        (0 :: ((List.range 1000).map Nat.succ).take 999)) 0 = false
    ∧ shouldEmit (recordAll ([] : List ℕ)
        (0 :: (List.range 1000).map Nat.succ)) 0 = true :=
  c5_dedup_cache.2.2 0 ((List.range 1000).map Nat.succ)
    (by rw [← List.range_succ_eq_map]; exact List.nodup_range 1001)
    (by simp)

/-! Section: Alert emission (C10) -/

/-- A signature already in the cache short-circuits `emitPositionAlert`:
the cache is unchanged, the callback is not invoked, nothing is thrown. -/
theorem emitPositionAlert_of_mem {seen : List String} {cb : Bool} {address : String}
    {position : HyperliquidPosition} (h : mkAlertId address position ∈ seen) :
    emitPositionAlert seen cb address position = ⟨seen, 0, false⟩ := by
  unfold emitPositionAlert
  rw [if_pos h]

/-- The cache after a fresh emission: the signature is appended, and the
size-cap cleanup runs only when the callback did not throw. -/
theorem emitPositionAlert_seen_of_not_mem {seen : List String} {cb : Bool}
    {address : String} {position : HyperliquidPosition}
    (h : mkAlertId address position ∉ seen) :
    (emitPositionAlert seen cb address position).seenAlerts =
      if cb then seen ++ [mkAlertId address position]
      else recordAlert seen (mkAlertId address position) := by
  unfold emitPositionAlert recordAlert
  rw [if_neg h, if_neg h]
  cases cb <;> simp

/-- C10: for a fresh signature, `emitPositionAlert` records the signature in
the dedup cache before invoking the callback — so even when the callback
throws (the error is caught by `handleFill`), the signature stays recorded —
and a second call with the same signature invokes the callback zero further
times and leaves the cache unchanged. -/
theorem c10_record_before_callback (seen : List String) (cbThrows : Bool)
    (address : String) (position : HyperliquidPosition)
    (h : mkAlertId address position ∉ seen) :
    (emitPositionAlert seen cbThrows address position).callbackCalls = 1
    ∧ (cbThrows = true → (emitPositionAlert seen cbThrows address position).threw = true)
    ∧ mkAlertId address position ∈ (emitPositionAlert seen cbThrows address position).seenAlerts
    ∧ ∀ cb2 : Bool,
        emitPositionAlert (emitPositionAlert seen cbThrows address position).seenAlerts
            cb2 address position =
          ⟨(emitPositionAlert seen cbThrows address position).seenAlerts, 0, false⟩ := by
  have hmem : mkAlertId address position
      ∈ (emitPositionAlert seen cbThrows address position).seenAlerts := by
    rw [emitPositionAlert_seen_of_not_mem h]
    cases cbThrows with
    | true => simp
    | false => simpa using recordAlert_self_mem seen (mkAlertId address position)
  refine ⟨?_, ?_, hmem, fun cb2 => emitPositionAlert_of_mem hmem⟩
  · unfold emitPositionAlert
    rw [if_neg h]
    cases cbThrows <;> simp
  · intro hcb
    subst hcb
    unfold emitPositionAlert
    rw [if_neg h]
    simp

/-- Witness for C10: an empty cache, a throwing callback, and then a second
identical event that invokes the callback zero further times. -/
theorem c10_record_before_callback_witness :
    (emitPositionAlert [] true "0xwhale"
        ⟨"BTC", 1, 150000, 4000, 50000, some 37⟩).callbackCalls = 1
    ∧ mkAlertId "0xwhale" ⟨"BTC", 1, 150000, 4000, 50000, some 37⟩
        ∈ (emitPositionAlert [] true "0xwhale"
            ⟨"BTC", 1, 150000, 4000, 50000, some 37⟩).seenAlerts
    ∧ emitPositionAlert
          (emitPositionAlert [] true "0xwhale"
            ⟨"BTC", 1, 150000, 4000, 50000, some 37⟩).seenAlerts
          false "0xwhale" ⟨"BTC", 1, 150000, 4000, 50000, some 37⟩ =
        ⟨(emitPositionAlert [] true "0xwhale"
            ⟨"BTC", 1, 150000, 4000, 50000, some 37⟩).seenAlerts, 0, false⟩ :=
  ⟨(c10_record_before_callback [] true "0xwhale" _ (by simp)).1,
   (c10_record_before_callback [] true "0xwhale" _ (by simp)).2.2.1,
   (c10_record_before_callback [] true "0xwhale" _ (by simp)).2.2.2 false⟩

/-! Section: Leaderboard refresh failure policy (C4) -/

/-- C4 counterexample: a truthy object payload that parses cleanly to no
address-like array replaces a non-empty previous target set with the empty
set instead of retaining it. -/
theorem c4_counterexample_empty_replaces :
    updateLeaderboard ["0xabc"] (LBResponse.payload (LBData.objectData [])) = []
    ∧ updateLeaderboard ["0xabc"] (LBResponse.payload (LBData.objectData [])) ≠ ["0xabc"] :=
  ⟨rfl, by decide⟩

/-- C4 amended: the previous target set is retained when the fetch throws
(endpoint unreachable), when the response body is falsy, and also when the
parsing code itself throws on a malformed truthy payload (a truthy
non-array `leaderboard` field, or a nullish element in an address array) —
all of these land in the same catch; but a truthy payload that parses
cleanly to no addresses replaces the target set with the empty set rather
than retaining it. -/
theorem c4_stale_policy_amended :
    (∀ previous : List String,
        updateLeaderboard previous LBResponse.fetchError = previous)
    ∧ (∀ previous : List String,
        updateLeaderboard previous (LBResponse.payload LBData.nullData) = previous)
    ∧ (∀ (previous : List String) (d : LBData), parseLeaderboard d = none →
        updateLeaderboard previous (LBResponse.payload d) = previous)
    ∧ (∀ (previous : List String) (d : LBData), d ≠ LBData.nullData →
        parseLeaderboard d = some [] →
        updateLeaderboard previous (LBResponse.payload d) = []) := by
  refine ⟨fun previous => rfl, fun previous => rfl,
    fun previous d hparse => ?_, fun previous d hne hparse => ?_⟩
  · cases d with
    | nullData => rfl
    | arrayData items => simp [updateLeaderboard, hparse]
    | leaderboardObj v => simp [updateLeaderboard, hparse]
    | objectData fields => simp [updateLeaderboard, hparse]
    | primitiveData => simp [updateLeaderboard, hparse]
  · cases d with
    | nullData => exact absurd rfl hne
    | arrayData items => simp [updateLeaderboard, hparse, listToSet]
    | leaderboardObj v => simp [updateLeaderboard, hparse, listToSet]
    | objectData fields => simp [updateLeaderboard, hparse, listToSet]
    | primitiveData => simp [updateLeaderboard, hparse, listToSet]

/-- Witness for C4 (amended): a thrown fetch, a truthy non-array
`leaderboard` field, and a nullish address-array element all keep the
previous set; an object payload with only non-array fields empties it. -/
theorem c4_stale_policy_amended_witness :
    updateLeaderboard ["0xabc"] LBResponse.fetchError = ["0xabc"]
    ∧ updateLeaderboard ["0xabc"]
        (LBResponse.payload (LBData.leaderboardObj LBFieldValue.nonArrVal)) = ["0xabc"]
    ∧ updateLeaderboard ["0xabc"]
        (LBResponse.payload (LBData.arrayData [LBItem.nullItem])) = ["0xabc"]
    ∧ updateLeaderboard ["0xabc"]
        (LBResponse.payload (LBData.objectData [ObjField.otherField])) = [] :=
  ⟨c4_stale_policy_amended.1 ["0xabc"],
   c4_stale_policy_amended.2.2.1 ["0xabc"]
     (LBData.leaderboardObj LBFieldValue.nonArrVal) rfl,
   c4_stale_policy_amended.2.2.1 ["0xabc"]
     (LBData.arrayData [LBItem.nullItem]) rfl,
   c4_stale_policy_amended.2.2.2 ["0xabc"]
     (LBData.objectData [ObjField.otherField]) (by decide) rfl⟩

/-! Section: Subscribe with a closed socket (C9) -/

/-- C9: when the WebSocket is not open, `subscribeToAddress` is a no-op —
no control frame is sent, the address is not added to
`activeSubscriptions`, and nothing is queued for retry. -/
theorem c9_subscribe_skipped_when_closed (s : EngineState) (a : String)
    (fetchOk : String → Bool) (h : s.wsOpen = false) :
    subscribeToAddress s a fetchOk = s := by
  unfold subscribeToAddress
  simp [h]

/-- Witness for C9 at a concrete closed-socket state. -/
theorem c9_subscribe_skipped_when_closed_witness :
    subscribeToAddress ⟨true, false, ["0xa"], [], [], [], []⟩ "0xa" (fun _ => true) =
      ⟨true, false, ["0xa"], [], [], [], []⟩ :=
  c9_subscribe_skipped_when_closed _ _ _ rfl

/-! Section: Connection lifecycle (C7) -/

/-- A concrete running engine with one target address, used to exhibit the
reconnect behaviour. -/
def c7State : EngineState :=
  ⟨true, true, ["0xtrader"], ["0xtrader"], ["0xtrader"], [], []⟩

/-- C7: evaluating the connection lifecycle at a concrete running engine: a
close while running schedules a reconnect after 5000 ms, and a close after
`stop()` schedules none — but once the transport reopens, no subscribe
frame has been sent for the target address and `activeSubscriptions` was
never cleared, so the target set is not re-subscribed from scratch. -/
theorem c7_reconnect_no_resubscribe :
    (handleClose c7State).2 = some 5000
    ∧ (handleClose (stopEngine c7State)).2 = none
    ∧ (reconnectOpen (handleClose c7State).1).wsOpen = true
    ∧ (reconnectOpen (handleClose c7State).1).topAddresses = ["0xtrader"]
    ∧ (reconnectOpen (handleClose c7State).1).sentFrames = []
    ∧ (reconnectOpen (handleClose c7State).1).activeSubscriptions = ["0xtrader"] :=
  ⟨rfl, rfl, rfl, rfl, rfl, rfl⟩

/-! Section: Leaderboard reconciliation (C6) -/

/-- Deleting a key removes it from the set-as-list. -/
theorem setDelete_not_mem (l : List String) (a : String) : a ∉ setDelete l a := by
  simp [setDelete]

/-- Deletion never adds elements. -/
theorem setDelete_subset {l : List String} {x a : String} (h : x ∈ setDelete l a) :
    x ∈ l := (List.mem_filter.mp h).1

/-- Function `subscribeToAddress` leaves `wsOpen`, `topAddresses` and
`userPositionKeys`-membership-of-others intact, never removes a
subscription, and subscribes its argument when the socket is open. -/
theorem subscribeToAddress_wsOpen (s : EngineState) (a : String) (f : String → Bool) :
    (subscribeToAddress s a f).wsOpen = s.wsOpen := by
  unfold subscribeToAddress
  split
  · rfl
  · split <;> rfl

/-- Function `subscribeToAddress` does not modify `topAddresses`. -/
theorem subscribeToAddress_top (s : EngineState) (a : String) (f : String → Bool) :
    (subscribeToAddress s a f).topAddresses = s.topAddresses := by
  unfold subscribeToAddress
  split
  · rfl
  · split <;> rfl

/-- Function `subscribeToAddress` keeps existing subscriptions. -/
theorem subscribeToAddress_mono {s : EngineState} {x : String} (a : String)
    (f : String → Bool) (h : x ∈ s.activeSubscriptions) :
    x ∈ (subscribeToAddress s a f).activeSubscriptions := by
  unfold subscribeToAddress
  split
  · exact h
  · split
    · exact h
    · simp only [List.mem_append]
      exact Or.inl h

/-- With an open socket, `subscribeToAddress` ends with its argument
subscribed. -/
theorem subscribeToAddress_self {s : EngineState} (a : String) (f : String → Bool)
    (hws : s.wsOpen = true) : a ∈ (subscribeToAddress s a f).activeSubscriptions := by
  unfold subscribeToAddress
  rw [hws]
  simp only [Bool.not_true, Bool.false_eq_true, if_false]
  split
  · assumption
  · simp

/-- Function `subscribeToAddress` adds no subscription other than its argument. -/
theorem subscribeToAddress_no_other {s : EngineState} {x : String} {a : String}
    (f : String → Bool) (hx : x ≠ a) (h : x ∉ s.activeSubscriptions) :
    x ∉ (subscribeToAddress s a f).activeSubscriptions := by
  unfold subscribeToAddress
  split
  · exact h
  · split
    · exact h
    · simp [h, hx]

/-- Function `subscribeToAddress` adds no position entry other than its argument's. -/
theorem subscribeToAddress_no_other_key {s : EngineState} {x : String} {a : String}
    (f : String → Bool) (hx : x ≠ a) (h : x ∉ s.userPositionKeys) :
    x ∉ (subscribeToAddress s a f).userPositionKeys := by
  unfold subscribeToAddress
  split
  · exact h
  · split
    · exact h
    · simp only
      split
      · exact h
      · split
        · simp [h, hx]
        · exact h

/-- Function `removeOne` leaves `wsOpen` and `topAddresses` intact. -/
theorem removeOne_wsOpen (s : EngineState) (a : String) :
    (removeOne s a).wsOpen = s.wsOpen := by
  unfold removeOne unsubscribeFromAddress
  split
  · rfl
  · split <;> rfl

/-- Function `removeOne` does not modify `topAddresses`. -/
theorem removeOne_top (s : EngineState) (a : String) :
    (removeOne s a).topAddresses = s.topAddresses := by
  unfold removeOne unsubscribeFromAddress
  split
  · rfl
  · split <;> rfl

/-- With an open socket, `removeOne` ends with its argument unsubscribed. -/
theorem removeOne_self_not_sub {s : EngineState} (a : String) (hws : s.wsOpen = true) :
    a ∉ (removeOne s a).activeSubscriptions := by
  unfold removeOne unsubscribeFromAddress
  rw [hws]
  simp only [Bool.not_true, Bool.false_eq_true, if_false]
  split
  · assumption
  · exact setDelete_not_mem _ a

/-- Function `removeOne` always deletes its argument's position entry. -/
theorem removeOne_self_not_key (s : EngineState) (a : String) :
    a ∉ (removeOne s a).userPositionKeys := by
  unfold removeOne
  exact setDelete_not_mem _ a

/-- Function `removeOne` never adds subscriptions. -/
theorem removeOne_sub_subset {s : EngineState} {x : String} (a : String)
    (h : x ∉ s.activeSubscriptions) : x ∉ (removeOne s a).activeSubscriptions := by
  unfold removeOne unsubscribeFromAddress
  split
  · exact h
  · split
    · exact h
    · simp only
      intro hmem
      exact h (setDelete_subset hmem)

/-- Function `removeOne` never adds position entries. -/
theorem removeOne_key_subset {s : EngineState} {x : String} (a : String)
    (h : x ∉ s.userPositionKeys) : x ∉ (removeOne s a).userPositionKeys := by
  unfold removeOne unsubscribeFromAddress
  intro hmem
  have hx := setDelete_subset hmem
  revert hx
  split
  · exact h
  · split
    · exact h
    · exact h

/-- Folding `removeOne` preserves `wsOpen`. -/
theorem foldRemove_wsOpen (l : List String) :
    ∀ s : EngineState, (l.foldl removeOne s).wsOpen = s.wsOpen := by
  induction l with
  | nil => intro s; rfl
  | cons b t ih => intro s; rw [List.foldl_cons, ih, removeOne_wsOpen]

/-- Folding `removeOne` preserves `topAddresses`. -/
theorem foldRemove_top (l : List String) :
    ∀ s : EngineState, (l.foldl removeOne s).topAddresses = s.topAddresses := by
  induction l with
  | nil => intro s; rfl
  | cons b t ih => intro s; rw [List.foldl_cons, ih, removeOne_top]

/-- Folding `removeOne` never adds subscriptions or position entries. -/
theorem foldRemove_preserves_absent (l : List String) :
    ∀ (s : EngineState) (x : String),
      (x ∉ s.activeSubscriptions → x ∉ (l.foldl removeOne s).activeSubscriptions)
      ∧ (x ∉ s.userPositionKeys → x ∉ (l.foldl removeOne s).userPositionKeys) := by
  induction l with
  | nil => intro s x; exact ⟨id, id⟩
  | cons b t ih =>
    intro s x
    rw [List.foldl_cons]
    exact ⟨fun h => (ih (removeOne s b) x).1 (removeOne_sub_subset b h),
      fun h => (ih (removeOne s b) x).2 (removeOne_key_subset b h)⟩

/-- With an open socket, every address in the removal list ends both
unsubscribed and without a position entry after the removal fold. -/
theorem foldRemove_removes (l : List String) :
    ∀ (s : EngineState), s.wsOpen = true → ∀ a ∈ l,
      a ∉ (l.foldl removeOne s).activeSubscriptions
      ∧ a ∉ (l.foldl removeOne s).userPositionKeys := by
  induction l with
  | nil => intro s _ a ha; simp at ha
  | cons b t ih =>
    intro s hws a ha
    rw [List.foldl_cons]
    rcases List.mem_cons.mp ha with hab | hat
    · subst hab
      have h1 := removeOne_self_not_sub a hws
      have h2 := removeOne_self_not_key s a
      exact ⟨(foldRemove_preserves_absent t (removeOne s a) a).1 h1,
        (foldRemove_preserves_absent t (removeOne s a) a).2 h2⟩
    · exact ih (removeOne s b) (by rw [removeOne_wsOpen]; exact hws) a hat

/-- Folding `subscribeToAddress` preserves `wsOpen`. -/
theorem foldSub_wsOpen (l : List String) (f : String → Bool) :
    ∀ s : EngineState, (l.foldl (fun st a => subscribeToAddress st a f) s).wsOpen
      = s.wsOpen := by
  induction l with
  | nil => intro s; rfl
  | cons b t ih => intro s; rw [List.foldl_cons, ih, subscribeToAddress_wsOpen]

/-- Folding `subscribeToAddress` preserves `topAddresses`. -/
theorem foldSub_top (l : List String) (f : String → Bool) :
    ∀ s : EngineState, (l.foldl (fun st a => subscribeToAddress st a f) s).topAddresses
      = s.topAddresses := by
  induction l with
  | nil => intro s; rfl
  | cons b t ih => intro s; rw [List.foldl_cons, ih, subscribeToAddress_top]

/-- Folding `subscribeToAddress` keeps existing subscriptions. -/
theorem foldSub_mono (l : List String) (f : String → Bool) :
    ∀ (s : EngineState) (x : String), x ∈ s.activeSubscriptions →
      x ∈ (l.foldl (fun st a => subscribeToAddress st a f) s).activeSubscriptions := by
  induction l with
  | nil => intro s x h; exact h
  | cons b t ih =>
    intro s x h
    rw [List.foldl_cons]
    exact ih _ x (subscribeToAddress_mono b f h)

/-- With an open socket, every address in the subscription list ends
subscribed after the subscription fold. -/
theorem foldSub_subscribes (l : List String) (f : String → Bool) :
    ∀ (s : EngineState), s.wsOpen = true → ∀ a ∈ l,
      a ∈ (l.foldl (fun st a => subscribeToAddress st a f) s).activeSubscriptions := by
  induction l with
  | nil => intro s _ a ha; simp at ha
  | cons b t ih =>
    intro s hws a ha
    rw [List.foldl_cons]
    rcases List.mem_cons.mp ha with hab | hat
    · subst hab
      exact foldSub_mono t f _ a (subscribeToAddress_self a f hws)
    · exact ih _ (by rw [subscribeToAddress_wsOpen]; exact hws) a hat

/-- The subscription fold adds nothing outside its list: an address absent
from the subscriptions, the position entries and the list stays absent. -/
theorem foldSub_preserves_absent (l : List String) (f : String → Bool) :
    ∀ (s : EngineState) (x : String), x ∉ l →
      (x ∉ s.activeSubscriptions →
        x ∉ (l.foldl (fun st a => subscribeToAddress st a f) s).activeSubscriptions)
      ∧ (x ∉ s.userPositionKeys →
        x ∉ (l.foldl (fun st a => subscribeToAddress st a f) s).userPositionKeys) := by
  induction l with
  | nil => intro s x _; exact ⟨id, id⟩
  | cons b t ih =>
    intro s x hxl
    have hxb : x ≠ b := fun e => hxl (e ▸ List.mem_cons_self b t)
    have hxt : x ∉ t := fun e => hxl (List.mem_cons_of_mem b e)
    rw [List.foldl_cons]
    exact ⟨fun h => (ih _ x hxt).1 (subscribeToAddress_no_other f hxb h),
      fun h => (ih _ x hxt).2 (subscribeToAddress_no_other_key f hxb h)⟩

/-- C6: the reconciliation diff satisfies `addedSet = new \ previous` and
`removedSet = previous \ new`; after `adjustSubscriptions` (with the socket
open) every removed address is unsubscribed and its position entry deleted,
and every added address is subscribed. -/
theorem c6_reconcile_diff (s : EngineState) (newTop : List String)
    (fetchOk : String → Bool) (hws : s.wsOpen = true) :
    (∀ a, a ∈ computeNewAddresses newTop s.topAddresses ↔
        a ∈ newTop ∧ a ∉ s.topAddresses)
    ∧ (∀ a, a ∈ computeRemovedAddresses newTop s.topAddresses ↔
        a ∈ s.topAddresses ∧ a ∉ newTop)
    ∧ (∀ a ∈ computeRemovedAddresses newTop s.topAddresses,
        a ∉ (adjustSubscriptions s newTop fetchOk).activeSubscriptions
        ∧ a ∉ (adjustSubscriptions s newTop fetchOk).userPositionKeys)
    ∧ (∀ a ∈ computeNewAddresses newTop s.topAddresses,
        a ∈ (adjustSubscriptions s newTop fetchOk).activeSubscriptions) := by
  refine ⟨fun a => by simp [computeNewAddresses],
    fun a => by simp [computeRemovedAddresses], ?_, ?_⟩
  · intro a ha
    have hanew : a ∉ newTop := by
      have := (List.mem_filter.mp ha).2
      simpa using this
    have hs1ws : ({ s with topAddresses := newTop } : EngineState).wsOpen = true := hws
    have hrem := foldRemove_removes (computeRemovedAddresses newTop s.topAddresses)
      { s with topAddresses := newTop } hs1ws a ha
    have hnotinA : a ∉ computeNewAddresses newTop s.topAddresses := by
      intro hmem
      exact hanew (List.mem_of_mem_filter hmem)
    have habs := foldSub_preserves_absent (computeNewAddresses newTop s.topAddresses)
      fetchOk ((computeRemovedAddresses newTop s.topAddresses).foldl removeOne
        { s with topAddresses := newTop }) a hnotinA
    exact ⟨habs.1 hrem.1, habs.2 hrem.2⟩
  · intro a ha
    have hs2ws : ((computeRemovedAddresses newTop s.topAddresses).foldl removeOne
        { s with topAddresses := newTop } : EngineState).wsOpen = true := by
      rw [foldRemove_wsOpen]
      exact hws
    exact foldSub_subscribes (computeNewAddresses newTop s.topAddresses) fetchOk _
      hs2ws a ha

/-- Witness for C6 at the spec's example: previous set {A,B,C}, new set
{B,C,D}; the diff is added = {D}, removed = {A}; A ends unsubscribed with
its position entry deleted, D ends subscribed. -/
theorem c6_reconcile_diff_witness :
    computeNewAddresses ["B", "C", "D"] ["A", "B", "C"] = ["D"]
    ∧ computeRemovedAddresses ["B", "C", "D"] ["A", "B", "C"] = ["A"]
    ∧ "A" ∉ (adjustSubscriptions
        ⟨true, true, ["A", "B", "C"], ["A", "B", "C"], ["A", "B", "C"], [], []⟩
        ["B", "C", "D"] (fun _ => true)).activeSubscriptions
    ∧ "A" ∉ (adjustSubscriptions
        ⟨true, true, ["A", "B", "C"], ["A", "B", "C"], ["A", "B", "C"], [], []⟩
        ["B", "C", "D"] (fun _ => true)).userPositionKeys
    ∧ "D" ∈ (adjustSubscriptions
        ⟨true, true, ["A", "B", "C"], ["A", "B", "C"], ["A", "B", "C"], [], []⟩
        ["B", "C", "D"] (fun _ => true)).activeSubscriptions :=
  ⟨by decide, by decide,
   ((c6_reconcile_diff ⟨true, true, ["A", "B", "C"], ["A", "B", "C"], ["A", "B", "C"],
       [], []⟩ ["B", "C", "D"] (fun _ => true) rfl).2.2.1 "A" (by decide)).1,
   ((c6_reconcile_diff ⟨true, true, ["A", "B", "C"], ["A", "B", "C"], ["A", "B", "C"],
       [], []⟩ ["B", "C", "D"] (fun _ => true) rfl).2.2.1 "A" (by decide)).2,
   (c6_reconcile_diff ⟨true, true, ["A", "B", "C"], ["A", "B", "C"], ["A", "B", "C"],
       [], []⟩ ["B", "C", "D"] (fun _ => true) rfl).2.2.2 "D" (by decide)⟩

/-! Section: Subscription batching (C8) -/

/-- One-step unfolding of the subscription queue loop. -/
theorem processSubscriptionQueue_eq (queue : List String) :
    processSubscriptionQueue queue =
      if queue = [] then []
      else
        SubEvent.dispatchBatch (queue.take SUBSCRIPTION_BATCH_SIZE) ::
          (if queue.drop SUBSCRIPTION_BATCH_SIZE = [] then []
           else SubEvent.delayStep SUBSCRIPTION_DELAY ::
             processSubscriptionQueue (queue.drop SUBSCRIPTION_BATCH_SIZE)) := by
  rw [processSubscriptionQueue]
  by_cases h : queue = [] <;> simp [h]

/-- No dispatched batch ever exceeds the configured batch size. -/
theorem batchesOf_processQueue_le (n : Nat) :
    ∀ queue : List String, queue.length ≤ n →
      ∀ b ∈ batchesOf (processSubscriptionQueue queue),
        b.length ≤ SUBSCRIPTION_BATCH_SIZE := by
  induction n with
  | zero =>
    intro q hq b hb
    have hqe : q = [] := List.length_eq_zero.mp (Nat.le_zero.mp hq)
    rw [hqe, processSubscriptionQueue_eq] at hb
    simp [batchesOf] at hb
  | succ n ih =>
    intro q hq b hb
    by_cases hqe : q = []
    · rw [hqe, processSubscriptionQueue_eq] at hb
      simp [batchesOf] at hb
    · rw [processSubscriptionQueue_eq, if_neg hqe] at hb
      by_cases hrest : q.drop SUBSCRIPTION_BATCH_SIZE = []
      · rw [if_pos hrest] at hb
        simp only [batchesOf, List.mem_cons, List.not_mem_nil, or_false] at hb
        rw [hb, List.length_take]
        exact min_le_left _ _
      · rw [if_neg hrest] at hb
        simp only [batchesOf, List.mem_cons] at hb
        rcases hb with hb1 | hb2
        · rw [hb1, List.length_take]
          exact min_le_left _ _
        · refine ih (q.drop SUBSCRIPTION_BATCH_SIZE) ?_ b hb2
          rw [List.length_drop]
          have hpos : 0 < q.length := List.length_pos.mpr hqe
          simp only [SUBSCRIPTION_BATCH_SIZE]
          omega

/-- C8: subscription requests are dispatched in batches of at most the
configured size 10, with the configured 100 ms delay between consecutive
batches; a queue of 25 addresses yields exactly the three batches of sizes
10, 10 and 5 separated by the two 100 ms delays. -/
theorem c8_batching :
    (∀ queue : List String, ∀ b ∈ batchesOf (processSubscriptionQueue queue),
        b.length ≤ SUBSCRIPTION_BATCH_SIZE)
    ∧ (∀ queue : List String, queue.length = 25 →
        (batchesOf (processSubscriptionQueue queue)).map List.length = [10, 10, 5]
        ∧ delaysOf (processSubscriptionQueue queue) = [100, 100]) := by
  constructor
  · intro q b hb
    exact batchesOf_processQueue_le q.length q le_rfl b hb
  · intro q hq
    have hne : q ≠ [] := by intro e; rw [e] at hq; simp at hq
    have hd1 : (q.drop 10).length = 15 := by rw [List.length_drop, hq]
    have hne1 : q.drop 10 ≠ [] := by
      intro e; rw [e] at hd1; simp at hd1
    have hd2 : ((q.drop 10).drop 10).length = 5 := by rw [List.length_drop, hd1]
    have hne2 : (q.drop 10).drop 10 ≠ [] := by
      intro e; rw [e] at hd2; simp at hd2
    have hd3 : (((q.drop 10).drop 10).drop 10) = [] := by
      rw [List.drop_eq_nil_iff, hd2]
      omega
    rw [processSubscriptionQueue_eq q, if_neg hne]
    simp only [SUBSCRIPTION_BATCH_SIZE, SUBSCRIPTION_DELAY]
    rw [if_neg hne1, processSubscriptionQueue_eq (q.drop 10), if_neg hne1]
    simp only [SUBSCRIPTION_BATCH_SIZE, SUBSCRIPTION_DELAY]
    rw [if_neg hne2, processSubscriptionQueue_eq ((q.drop 10).drop 10), if_neg hne2]
    simp only [SUBSCRIPTION_BATCH_SIZE, SUBSCRIPTION_DELAY]
    rw [if_pos hd3]
    constructor
    · simp only [batchesOf, List.map_cons, List.map_nil]
      rw [List.length_take, List.length_take, List.length_take, hq, hd1, hd2]
      norm_num
    · simp [delaysOf, batchesOf]

/-- Witness for C8 with a concrete queue of 25 addresses. -/
theorem c8_batching_witness :
    (batchesOf (processSubscriptionQueue ((List.range 25).map toString))).map
        List.length = [10, 10, 5]
    ∧ delaysOf (processSubscriptionQueue ((List.range 25).map toString)) = [100, 100] :=
  c8_batching.2 ((List.range 25).map toString) (by simp)

end Hyperliquid
